import Mathlib

/-!
Verification of the Event-Generators allocation validation engine.

The development shallowly embeds the validation core of the repository:

* `validators/conflict_checker.py` — `ConflictChecker.check_resource_conflict`,
  `check_multiple_resources_conflict`, `find_available_time_slot`;
* `services/constraint_service.py` — `ConstraintService.validate_resources`
  and `_validate_with_rules`;
* `cli/main.py` — the batch validation phase of `EventManagerApp.create_event`.

Timestamps are modelled as integer minutes; a calendar date is the floor
division of a timestamp by 1440 and `datetime.combine(date, time(hour))`
becomes `date * 1440 + hour * 60`.  Database queries are modelled as pure
functions over an explicit list of rows; the exception channel of
`DatabaseConnection.execute_query` (which re-raises `mariadb.Error`) is
modelled with `Except String`.
-/

/-- One row of the SQL join `event_resources er JOIN events e` used by
`check_resource_conflict`: the allocation ledger.  Fields mirror the joined
columns (`er.resource_id`, `e.id`, `e.title`, `e.start_time`, `e.end_time`,
`e.status`, `er.quantity_used`). -/
structure AllocRow where
  resource_id : Int
  event_id : Int
  title : String
  start_time : Int
  end_time : Int
  status : String
  quantity_used : Int
deriving DecidableEq, Repr

/-- A resource record (`models/resource.py`); only the fields the engine
reads are kept (`description`, `created_at`, `current_usage` are unused by
the conflict checker). -/
structure Resource where
  id : Int
  name : String
  resource_type : String
  quantity : Int
  is_active : Bool
deriving DecidableEq, Repr

/-- The data visible to the engine: the resource table and the allocation
ledger (join of `event_resources` and `events`). -/
structure Store where
  resources : List Resource
  ledger : List AllocRow
deriving Repr

/-- Foreign-key integrity of `event_resources.resource_id`: every ledger row
references an existing resource. -/
def Store.wf (st : Store) : Prop :=
  ∀ row ∈ st.ledger, ∃ res ∈ st.resources, res.id = row.resource_id

/-- One element of the `conflicts` list built by `check_resource_conflict`:
either a conflict dict (event id, title, window, quantity, conflict type) or
the `{'error': str(e)}` dict produced by the `except` branch. -/
inductive ConflictItem where
  | detail (event_id : Int) (event_title : String)
      (existing_start existing_end : Int) (quantity_used : Int)
      (conflict_type : String)
  | errorItem (msg : String)
deriving DecidableEq, Repr

/-- SQL `x BETWEEN lo AND hi` (inclusive on both ends). -/
def sqlBetween (x lo hi : Int) : Bool :=
  decide (lo ≤ x) && decide (x ≤ hi)

/-- The overlap disjunction of the WHERE clause in `check_resource_conflict`
(lines 76–88 of `conflict_checker.py`), for requested window `[s,e)` against
an existing event `[s2,e2)`:
`(s BETWEEN s2 AND e2) OR (e BETWEEN s2 AND e2) OR (s2 BETWEEN s AND e) OR
(s2 < e AND e2 > s)`. -/
def overlapCond (s e s2 e2 : Int) : Bool :=
  sqlBetween s s2 e2 || sqlBetween e s2 e2 || sqlBetween s2 s e ||
    (decide (s2 < e) && decide (e2 > s))

/-- The `AND e.id != %s` clause, added only under Python truthiness of
`exclude_event_id` (`if exclude_event_id:`), so `Some 0` adds no clause. -/
def exclKeep (excl : Option Int) (eid : Int) : Bool :=
  match excl with
  | none => true
  | some ex => if ex == 0 then true else eid != ex

/-- The row set returned by the SQL query of `check_resource_conflict`:
ledger rows of the resource with status `scheduled`, ending after `NOW()`,
satisfying the overlap disjunction and the optional event-id exclusion. -/
def conflictQueryRows (ledger : List AllocRow) (now : Int) (rid : Int)
    (s e : Int) (excl : Option Int) : List AllocRow :=
  ledger.filter fun r =>
    r.resource_id == rid && r.status == "scheduled" && decide (now < r.end_time)
      && overlapCond s e r.start_time r.end_time && exclKeep excl r.event_id

/-- Embeds `ConflictChecker._determine_conflict_type`.  Note the branch order of the
source: the `overlap` test precedes the `adjacent` one. -/
def determine_conflict_type (new_start new_end existing_start existing_end : Int) :
    String :=
  if new_start < existing_start ∧ new_end > existing_end then "contains"
  else if new_start > existing_start ∧ new_end < existing_end then "contained"
  else if new_start ≤ existing_end ∧ new_end ≥ existing_start then "overlap"
  else if new_end == existing_start ∨ new_start == existing_end then "adjacent"
  else "unknown"

/-- The conflict dict built for one returned row. -/
def mkConflictDetail (s e : Int) (r : AllocRow) : ConflictItem :=
  .detail r.event_id r.title r.start_time r.end_time r.quantity_used
    (determine_conflict_type s e r.start_time r.end_time)

/-- The post-query part of `check_resource_conflict`: `if results:` builds
one conflict dict per row and returns `(True, conflicts)`, otherwise
`(False, [])`. -/
def check_resource_conflict_core (s e : Int) (results : List AllocRow) :
    Bool × List ConflictItem :=
  if results.isEmpty then (false, [])
  else (true, results.map (mkConflictDetail s e))

/-- Embeds `ConflictChecker.check_resource_conflict` on a successfully answered
query.  The SQL `ORDER BY e.start_time` is modelled by an insertion sort on
`start_time` (it only fixes the presentation order of the returned rows). -/
def check_resource_conflict (ledger : List AllocRow) (now : Int) (rid : Int)
    (s e : Int) (excl : Option Int) : Bool × List ConflictItem :=
  check_resource_conflict_core s e
    ((conflictQueryRows ledger now rid s e excl).insertionSort
      (fun a b => a.start_time ≤ b.start_time))

/-- Wraps `check_resource_conflict` with the query's failure channel: the
`except Exception` branch returns `(True, [{'error': str(e)}])`. -/
def check_resource_conflict_run (s e : Int)
    (q : Except String (List AllocRow)) : Bool × List ConflictItem :=
  match q with
  | .error msg => (true, [ConflictItem.errorItem msg])
  | .ok results => check_resource_conflict_core s e results

/-- Result dict of `check_multiple_resources_conflict`. -/
structure MultiResult where
  has_conflict : Bool
  conflicting_resources : List Int
  conflicts : List ConflictItem
  total_resources_checked : Nat
  conflicting_count : Nat
deriving DecidableEq, Repr

/-- Loop body of `check_multiple_resources_conflict`: appends the resource id
and extends the aggregated conflict list when the per-resource check reports
a conflict. -/
def multiStep (ledger : List AllocRow) (now : Int) (s e : Int)
    (excl : Option Int) (acc : List Int × List ConflictItem) (rid : Int) :
    List Int × List ConflictItem :=
  let res := check_resource_conflict ledger now rid s e excl
  if res.1 then (acc.1 ++ [rid], acc.2 ++ res.2) else acc

/-- Embeds `ConflictChecker.check_multiple_resources_conflict`: runs the
per-resource check over every id in the list and aggregates the results.
(Its own `except` branch is unreachable here because
`check_resource_conflict` already catches every exception.) -/
def check_multiple_resources_conflict (ledger : List AllocRow) (now : Int)
    (rids : List Int) (s e : Int) (excl : Option Int) : MultiResult :=
  let acc := rids.foldl (multiStep ledger now s e excl) ([], [])
  { has_conflict := !acc.1.isEmpty
    conflicting_resources := acc.1
    conflicts := acc.2
    total_resources_checked := rids.length
    conflicting_count := acc.1.length }

/-- Result of `find_available_time_slot` (the three dict shapes returned by
the source: desired window available, swept candidate available with
`days_offset`/`hour`, or unavailable with `max_days_checked`). -/
inductive SlotResult where
  | availableDesired (start_time end_time : Int) (reason : String)
  | availableSlot (start_time end_time : Int) (reason : String)
      (days_offset : Nat) (hour : Nat)
  | unavailable (reason : String) (max_days_checked : Nat)
deriving DecidableEq, Repr

/-- The inner `for hour in range(8, 20)` loop with early return: tries `n`
consecutive hours starting at `h`, returning the first accepted one. -/
def hourSweep (p : Nat → Bool) : Nat → Nat → Option Nat
  | _, 0 => none
  | h, n + 1 => if p h then some h else hourSweep p (h + 1) n

/-- The outer `for day_offset in range(max_days_ahead)` loop with early
return: tries `n` consecutive day offsets starting at `d`, returning the
first offset on which the hour sweep succeeds, paired with that hour. -/
def daySweep (q : Nat → Option Nat) : Nat → Nat → Option (Nat × Nat)
  | _, 0 => none
  | d, n + 1 =>
    match q d with
    | some h => some (d, h)
    | none => daySweep q (d + 1) n

/-- Computes `datetime.combine(desired_date + day_offset, time(hour))` in minutes:
the desired start's calendar date is `fdiv` by 1440. -/
def candidateStart (desired_start : Int) (day_offset hour : Nat) : Int :=
  (desired_start.fdiv 1440 + day_offset) * 1440 + hour * 60

/-- Whether a swept candidate window of `durationHours` hours starting at
day offset `d`, hour `h` is conflict-free for every requested resource. -/
def slotFree (ledger : List AllocRow) (now : Int) (rids : List Int)
    (desired_start : Int) (durationHours : Nat) (excl : Option Int)
    (d h : Nat) : Bool :=
  let cs := candidateStart desired_start d h
  !(check_multiple_resources_conflict ledger now rids cs
      (cs + durationHours * 60) excl).has_conflict

/-- Embeds `ConflictChecker.find_available_time_slot`: returns the desired window
when it is conflict-free, otherwise sweeps `max_days_ahead` days from the
desired date, hours 8..19, returning the first conflict-free candidate of
the requested duration, else `available=False` with `max_days_checked`.
(The source's `search_start` local is computed but never used; reason
strings for swept candidates render a calendar date in the source and are
abbreviated here to the day offset and hour they interpolate.) -/
def find_available_time_slot (ledger : List AllocRow) (now : Int)
    (rids : List Int) (desired_start desired_end : Int)
    (durationHours : Nat) (maxDaysAhead : Nat) (excl : Option Int) :
    SlotResult :=
  let desired := check_multiple_resources_conflict ledger now rids
    desired_start desired_end excl
  if !desired.has_conflict then
    .availableDesired desired_start desired_end "Horario deseado disponible"
  else
    match daySweep
        (fun d => hourSweep
          (slotFree ledger now rids desired_start durationHours excl d) 8 12)
        0 maxDaysAhead with
    | some (d, h) =>
      let cs := candidateStart desired_start d h
      .availableSlot cs (cs + durationHours * 60)
        (s!"Disponible dia {d} a las {h}:00") d h
    | none =>
      .unavailable
        (s!"No hay disponibilidad en los proximos {maxDaysAhead} dias")
        maxDaysAhead

/-- One row of the joined `constraints c JOIN constraint_rules cr` query of
`validate_resources` (only the columns the loop reads). -/
structure RuleRow where
  constraint_id : Int
  resource_id : Int
  rule_type : String
  related_resource_id : Option Int
  value : Option Int
deriving DecidableEq, Repr

/-- A violation dict emitted by `_validate_with_rules` (`type`, `message`,
`resource_id`, `related_resource_id`). -/
structure Violation where
  vtype : String
  message : String
  resource_id : Int
  related_resource_id : Option Int
deriving DecidableEq, Repr

/-- Violations emitted for one `(resource_id, rule)` pair by
`_validate_with_rules`.  Python truthiness of `if related_id:` makes a
`NULL` or `0` related id skip the rule. -/
def ruleViolations (resource_ids : List Int) (rid : Int) (r : RuleRow) :
    List Violation :=
  if r.rule_type == "requires" then
    match r.related_resource_id with
    | some related =>
      if related != 0 && !resource_ids.contains related then
        [{ vtype := "missing_requirement"
           message := s!"El recurso {rid} requiere el recurso {related}"
           resource_id := rid
           related_resource_id := some related }]
      else []
    | none => []
  else if r.rule_type == "excludes" then
    match r.related_resource_id with
    | some related =>
      if related != 0 && resource_ids.contains related then
        [{ vtype := "mutual_exclusion"
           message := s!"El recurso {rid} excluye el recurso {related}"
           resource_id := rid
           related_resource_id := some related }]
      else []
    | none => []
  else []

/-- Embeds `ConstraintService._validate_with_rules`: for every candidate id, every
rule whose `resource_id` matches it is evaluated. -/
def validate_with_rules (resource_ids : List Int) (rules : List RuleRow) :
    List Violation :=
  resource_ids.flatMap fun rid =>
    (rules.filter fun r => r.resource_id == rid).flatMap
      (ruleViolations resource_ids rid)

/-- State of the grouping loop of `validate_resources`:
`(current_constraint, rules, violations)`. -/
def groupStep (resource_ids : List Int)
    (st : Option Int × List RuleRow × List Violation) (row : RuleRow) :
    Option Int × List RuleRow × List Violation :=
  if st.1 != some row.constraint_id then
    -- flush guard `if current_constraint and rules:` (Python truthiness)
    let flushed :=
      match st.1 with
      | some c =>
        if c != 0 && !st.2.1.isEmpty then
          st.2.2 ++ validate_with_rules resource_ids st.2.1
        else st.2.2
      | none => st.2.2
    (some row.constraint_id, [row], flushed)
  else (st.1, st.2.1 ++ [row], st.2.2)

/-- Embeds `ConstraintService.validate_resources` on the rows the active-rules
query returned (ordered by constraint id): groups contiguous rows by
constraint id and validates each group, flushing the last group
unconditionally (`if rules:`). -/
def validate_resources (resource_ids : List Int) (rows : List RuleRow) :
    List Violation :=
  let st := rows.foldl (groupStep resource_ids) (none, [], [])
  if !st.2.1.isEmpty then st.2.2 ++ validate_with_rules resource_ids st.2.1
  else st.2.2

/-- Wraps `validate_resources` with the query's failure channel: the `except`
branch returns the violations accumulated before the failure, which is the
empty list when the initial rules query itself raises. -/
def validate_resources_run (resource_ids : List Int)
    (q : Except String (List RuleRow)) : List Violation :=
  match q with
  | .error _ => []
  | .ok rows => validate_resources resource_ids rows

/-- An event record as built by `create_event` before persistence (title
numbering and description are presentation-only and omitted). -/
structure EventRec where
  start_time : Int
  end_time : Int
  resource_ids : List Int
deriving DecidableEq, Repr

/-- Outcome of the batch-validation phase of `create_event`: rejected on
business rules, rejected at an occurrence (the number printed is `i + 1`
for 0-based loop index `i`), or accepted with the events to persist. -/
inductive BatchResult where
  | rejectedRules (violations : List Violation)
  | rejectedConflict (occurrence_number : Nat) (conflicts : List ConflictItem)
  | accepted (events : List EventRec)
deriving DecidableEq, Repr

/-- Trace marker for the validation calls `create_event` issues, used to
state that rules are checked exactly once, before any conflict check. -/
inductive ValidationCall where
  | rulesCall
  | conflictCall (idx : Nat)
deriving DecidableEq, Repr

/-- The `for i, (s_time, e_time) in enumerate(date_list)` loop of
`create_event`: aborts at the first window with a conflict, reporting
`i + 1` (the number printed in `REPETICION #{i+1}`), and records one
conflict call per window actually checked. -/
def scanWindows (ledger : List AllocRow) (now : Int) (rids : List Int) :
    List (Int × Int) → Nat →
      Option (Nat × List ConflictItem) × List ValidationCall
  | [], _ => (none, [])
  | (s, e) :: rest, i =>
    let res := check_multiple_resources_conflict ledger now rids s e none
    if res.has_conflict then (some (i + 1, res.conflicts), [.conflictCall i])
    else
      let tail := scanWindows ledger now rids rest (i + 1)
      (tail.1, .conflictCall i :: tail.2)

/-- The events `create_event` builds after validation passes: one per date
pair. -/
def buildEvents (rids : List Int) (dates : List (Int × Int)) : List EventRec :=
  dates.map fun d => { start_time := d.1, end_time := d.2, resource_ids := rids }

/-- The batch-validation phase of `EventManagerApp.create_event`
(`cli/main.py`): with a nonempty resource list it validates business rules
once, then scans the windows in order for conflicts; any rejection happens
before any event object is built.  With an empty resource list the whole
validation block is skipped (`if resource_ids:`).  Also returns the trace
of validation calls made. -/
def create_event (ruleRows : List RuleRow) (ledger : List AllocRow)
    (now : Int) (rids : List Int) (dates : List (Int × Int)) :
    BatchResult × List ValidationCall :=
  if rids.isEmpty then (.accepted (buildEvents rids dates), [])
  else
    let violations := validate_resources rids ruleRows
    if !violations.isEmpty then (.rejectedRules violations, [.rulesCall])
    else
      match scanWindows ledger now rids dates 0 with
      | (some (n, cs), tr) => (.rejectedConflict n cs, .rulesCall :: tr)
      | (none, tr) => (.accepted (buildEvents rids dates), .rulesCall :: tr)

/-- Events actually created by `create_event`: none unless the batch was
accepted (the source returns before the creation loop on any rejection). -/
def createdEvents : BatchResult → List EventRec
  | .accepted evs => evs
  | _ => []

/-- Modelled from the spec: the overlap predicate the spec states for
`checkResourceConflict` — strict half-open intersection `s2 < e AND e2 > s`.
Declared only to be compared with the source's `overlapCond`. -/
def specOverlap (s e s2 e2 : Int) : Bool :=
  decide (s2 < e) && decide (e2 > s)

/-- Modelled from the spec: `remainingCapacity = totalCapacity -
currentUsage` with `currentUsage` the sum of `quantityUsed` over the
overlapping allocations, and conflict iff `neededQuantity >
remainingCapacity`.  Declared only to be compared with the source. -/
def specCapacityConflict (neededQuantity totalCapacity : Int)
    (overlapping : List AllocRow) : Bool :=
  decide (neededQuantity >
    totalCapacity - (overlapping.map (·.quantity_used)).sum)

/-! ### Helper lemmas -/

/-- The four-way overlap disjunction of the query equals closed-interval
intersection, given non-degenerate windows. -/
theorem overlapCond_iff_closed (s e s2 e2 : Int) (hs : s ≤ e) (h2 : s2 ≤ e2) :
    overlapCond s e s2 e2 = true ↔ (s2 ≤ e ∧ s ≤ e2) := by
  simp only [overlapCond, sqlBetween, Bool.or_eq_true, Bool.and_eq_true,
    decide_eq_true_eq]
  omega

/-- Membership in the query result, unfolded to the row predicate. -/
theorem mem_conflictQueryRows {ledger : List AllocRow} {now rid s e : Int}
    {excl : Option Int} {row : AllocRow} :
    row ∈ conflictQueryRows ledger now rid s e excl ↔
      row ∈ ledger ∧
        (row.resource_id == rid && row.status == "scheduled" &&
          decide (now < row.end_time) &&
          overlapCond s e row.start_time row.end_time &&
          exclKeep excl row.event_id) = true := by
  simp [conflictQueryRows, List.mem_filter]

/-! ### C1 — overlap predicate of `check_resource_conflict` -/

/-- C1 (amended): an existing allocation `[s2,e2)` is counted against the
requested window `[s,e)` exactly when the closed intervals intersect,
`s2 ≤ e AND e2 ≥ s`; windows that merely touch at an endpoint DO count.
A ledger row is returned by the conflict query iff it belongs to the
resource, is scheduled, ends after `NOW()`, passes the event exclusion, and
its window intersects the requested one in the closed sense. -/
theorem c1_overlap_closed_intervals (ledger : List AllocRow)
    (now rid s e : Int) (excl : Option Int) (row : AllocRow)
    (hs : s ≤ e) (hrow : row.start_time ≤ row.end_time) :
    row ∈ conflictQueryRows ledger now rid s e excl ↔
      (row ∈ ledger ∧ row.resource_id = rid ∧ row.status = "scheduled" ∧
       now < row.end_time ∧ exclKeep excl row.event_id = true ∧
       row.start_time ≤ e ∧ s ≤ row.end_time) := by
  rw [mem_conflictQueryRows]
  simp only [Bool.and_eq_true, beq_iff_eq, decide_eq_true_eq,
    overlapCond_iff_closed s e row.start_time row.end_time hs hrow]
  tauto

/-- C1 (counterexample): the requested window `[60,120)` merely touches the
existing scheduled allocation `[120,180)` (`e == s2`); the spec's half-open
predicate says no overlap, yet the code reports a conflict. -/
theorem c1_touching_counts_counterexample :
    (check_resource_conflict
        [{ resource_id := 1, event_id := 7, title := "X", start_time := 120,
           end_time := 180, status := "scheduled", quantity_used := 1 }]
        0 1 60 120 none).1 = true ∧
      specOverlap 60 120 120 180 = false := by
  decide

/-- Witness for `c1_overlap_closed_intervals` at a concrete input. -/
theorem c1_overlap_closed_intervals_witness :
    ({ resource_id := 1, event_id := 7, title := "X", start_time := 100,
       end_time := 200, status := "scheduled", quantity_used := 1 } : AllocRow) ∈
      conflictQueryRows
        [{ resource_id := 1, event_id := 7, title := "X", start_time := 100,
           end_time := 200, status := "scheduled", quantity_used := 1 }]
        0 1 150 250 none :=
  (c1_overlap_closed_intervals _ 0 1 150 250 none _ (by decide)
    (by decide)).mpr (by refine ⟨?_, by decide, by decide, by decide, by decide, by decide, by decide⟩; simp)

/-! ### C3 — nonexistent resource ids -/

/-- C3 (counterexample): in a store with no resources at all (so resource id
42 does not exist), `check_resource_conflict` returns `(False, [])` — a
silent pass, not the fail-closed `ResourceNotFound` conflict the claim
requires. -/
theorem c3_missing_resource_counterexample :
    check_resource_conflict ([] : List AllocRow) 0 42 0 60 none =
        (false, []) ∧
      (∀ res ∈ ([] : List Resource), res.id ≠ 42) := by
  constructor
  · decide
  · intro res h
    cases h

/-- C3 (amended): `check_resource_conflict` performs no existence check on
the resource id; for any store with foreign-key integrity whose resource
table does not contain the id, the check returns `(False, [])` — a silent
no-conflict pass (fail-open), never a `ResourceNotFound` conflict. -/
theorem c3_missing_resource_no_conflict (st : Store) (now rid s e : Int)
    (excl : Option Int) (hwf : st.wf)
    (habs : ∀ res ∈ st.resources, res.id ≠ rid) :
    check_resource_conflict st.ledger now rid s e excl = (false, []) := by
  have hnil : conflictQueryRows st.ledger now rid s e excl = [] := by
    simp only [conflictQueryRows]
    rw [List.filter_eq_nil_iff]
    intro row hrow
    obtain ⟨res, hres, hid⟩ := hwf row hrow
    have hne : row.resource_id ≠ rid := fun h => habs res hres (by rw [hid, h])
    simp [hne]
  unfold check_resource_conflict
  rw [hnil]
  rfl

/-- Witness for `c3_missing_resource_no_conflict` at a concrete store. -/
theorem c3_missing_resource_no_conflict_witness :
    check_resource_conflict
        (Store.mk [{ id := 1, name := "Sala", resource_type := "room",
                     quantity := 1, is_active := true }] []).ledger
        0 42 0 60 none = (false, []) :=
  c3_missing_resource_no_conflict
    (Store.mk [{ id := 1, name := "Sala", resource_type := "room",
                 quantity := 1, is_active := true }] [])
    0 42 0 60 none (by intro row h; cases h) (by decide)

/-! ### C10 — only future events are considered -/

/-- C10: the conflict query keeps only allocations whose owning scheduled
event ends strictly after `now` (`AND e.end_time > NOW()`); an allocation
lying entirely in the past is never returned, and a ledger holding only
past allocations yields no conflict at all. -/
theorem c10_past_allocations_ignored (ledger : List AllocRow)
    (now rid s e : Int) (excl : Option Int) :
    (∀ row ∈ ledger, row.end_time ≤ now →
        row ∉ conflictQueryRows ledger now rid s e excl) ∧
      ((∀ row ∈ ledger, row.end_time ≤ now) →
        check_resource_conflict ledger now rid s e excl = (false, [])) := by
  constructor
  · intro row _ hpast hc
    rw [mem_conflictQueryRows] at hc
    simp only [Bool.and_eq_true, decide_eq_true_eq] at hc
    omega
  · intro hall
    have hnil : conflictQueryRows ledger now rid s e excl = [] := by
      simp only [conflictQueryRows]
      rw [List.filter_eq_nil_iff]
      intro row hrow
      have := hall row hrow
      simp only [Bool.and_eq_true, decide_eq_true_eq, not_and]
      intro _ h2
      omega
    unfold check_resource_conflict
    rw [hnil]
    rfl

/-- Witness for `c10_past_allocations_ignored`: an allocation overlapping
the requested window but ending before `now` causes no conflict. -/
theorem c10_past_allocations_ignored_witness :
    check_resource_conflict
        [{ resource_id := 1, event_id := 3, title := "Past", start_time := 10,
           end_time := 50, status := "scheduled", quantity_used := 1 }]
        1000 1 20 40 none = (false, []) :=
  (c10_past_allocations_ignored _ 1000 1 20 40 none).2 (by decide)

/-! ### C2 — no capacity accounting in `check_resource_conflict` -/

/-- C2 (code bug): the scenario of the repository's own test
`test_capacity_check_success` (total capacity 10, one overlapping allocation
using 5 units, 2 more needed).  The capacity formula of the claim and of the
test says no conflict (`2 ≤ 10 - 5`), but the shipped
`check_resource_conflict` — which accepts no `needed_quantity` at all —
reports a conflict because an overlapping allocation exists. -/
theorem c2_no_capacity_accounting :
    (check_resource_conflict
        [{ resource_id := 1, event_id := 1, title := "Otro", start_time := 990,
           end_time := 1100, status := "scheduled", quantity_used := 5 }]
        0 1 1000 1060 none).1 = true ∧
      specCapacityConflict 2 10
        [{ resource_id := 1, event_id := 1, title := "Otro", start_time := 990,
           end_time := 1100, status := "scheduled", quantity_used := 5 }]
        = false := by
  decide

/-! ### C8 — failure propagation of the two engines -/

/-- C8 (counterexample): a failing rules query makes `validate_resources`
return the empty violation list — byte-for-byte the same value a clean,
rule-free validation returns, so the caller reads the failure as a fully
consistent acceptance. -/
theorem c8_fail_open_counterexample :
    validate_resources_run [1] (Except.error "db caida") =
        ([] : List Violation) ∧
      validate_resources_run [1] (Except.ok []) = ([] : List Violation) :=
  ⟨rfl, rfl⟩

/-- C8 (amended): the two engines handle store failures asymmetrically —
`check_resource_conflict` propagates a query failure as a conflict
(fail-closed), while `validate_resources` swallows it and returns the
violations accumulated before the failure, i.e. the empty list when the
rules query itself fails (fail-open). -/
theorem c8_error_channel_asymmetry :
    (∀ (s e : Int) (msg : String),
        check_resource_conflict_run s e (Except.error msg) =
          (true, [ConflictItem.errorItem msg])) ∧
      (∀ (ids : List Int) (msg : String),
        validate_resources_run ids (Except.error msg) = []) :=
  ⟨fun _ _ _ => rfl, fun _ _ => rfl⟩

/-! ### C9 — rules are directional -/

/-- C9: a rule is evaluated only when its own `resource_id` is in the
candidate set: if no rule's subject occurs in the candidate list,
`_validate_with_rules` emits no violation — in particular a rule on A with
related resource B emits nothing for a candidate set containing only B. -/
theorem c9_directional_rules (ids : List Int) (rules : List RuleRow)
    (h : ∀ r ∈ rules, r.resource_id ∉ ids) :
    validate_with_rules ids rules = [] := by
  unfold validate_with_rules
  rw [List.flatMap_eq_nil_iff]
  intro rid hrid
  have hfil : rules.filter (fun r => r.resource_id == rid) = [] := by
    rw [List.filter_eq_nil_iff]
    intro r hr
    simp only [beq_iff_eq]
    intro heq
    exact h r hr (heq ▸ hrid)
  rw [hfil]
  rfl

/-- Witness for `c9_directional_rules`: a `requires` rule on resource 1 with
related resource 2 yields nothing for candidate set `{2}`. -/
theorem c9_directional_rules_witness :
    validate_with_rules [2] [⟨100, 1, "requires", some 2, none⟩] = [] :=
  c9_directional_rules [2] [⟨100, 1, "requires", some 2, none⟩] (by decide)

/-! ### C5 — requires/excludes rule semantics -/

/-- Flat-mapping a guard that fires on no element yields nothing. -/
theorem flatMap_ite_not_mem {β : Type} (a : Int) (vs : List β)
    (l : List Int) (h : a ∉ l) :
    (l.flatMap fun x => if a == x then vs else []) = [] := by
  rw [List.flatMap_eq_nil_iff]
  intro x hx
  have : ¬(a == x) = true := by
    simp only [beq_iff_eq]
    intro heq
    exact h (heq ▸ hx)
  simp [this]

/-- Flat-mapping a guard that fires on exactly one occurrence yields the
guarded list once. -/
theorem flatMap_ite_count_one {β : Type} (a : Int) (vs : List β) :
    ∀ l : List Int, l.count a = 1 →
      (l.flatMap fun x => if a == x then vs else []) = vs := by
  intro l
  induction l with
  | nil => intro h; simp at h
  | cons x t ih =>
    intro h
    by_cases hx : a = x
    · subst hx
      have ht : a ∉ t := by
        rw [List.count_cons_self] at h
        simpa using List.count_eq_zero.mp (by omega)
      rw [List.flatMap_cons, if_pos (by simp),
        flatMap_ite_not_mem a vs t ht, List.append_nil]
    · have hbx : (a == x) = false := by simpa using hx
      have ht : t.count a = 1 := by
        rwa [List.count_cons_of_ne hx] at h
      rw [List.flatMap_cons, if_neg (by simp [hbx]), List.nil_append]
      exact ih ht

/-- Evaluates `_validate_with_rules` against a single rule, as a guarded flat-map over
the candidate ids. -/
theorem validate_with_rules_single (ids : List Int) (r : RuleRow) :
    validate_with_rules ids [r] =
      ids.flatMap fun rid =>
        if r.resource_id == rid then ruleViolations ids r.resource_id r
        else [] := by
  unfold validate_with_rules
  congr 1
  funext rid
  rw [List.filter_singleton]
  by_cases hc : r.resource_id = rid
  · subst hc
    simp
  · have hbc : (r.resource_id == rid) = false := by simpa using hc
    simp [hbc]

/-- C5: against the single rule `requires(A→B)` (resp. `excludes(A→B)`), a
candidate list containing A once and not B yields exactly the one
`missing_requirement` violation (resp. with B present, the one
`mutual_exclusion` violation), and the respective satisfied sets yield no
violation at all. -/
theorem c5_requires_excludes (ids : List Int) (a b cid : Int) (hb : b ≠ 0) :
    (ids.count a = 1 → b ∉ ids →
      validate_with_rules ids [⟨cid, a, "requires", some b, none⟩] =
        [{ vtype := "missing_requirement",
           message := s!"El recurso {a} requiere el recurso {b}",
           resource_id := a, related_resource_id := some b }]) ∧
    (b ∈ ids →
      validate_with_rules ids [⟨cid, a, "requires", some b, none⟩] = []) ∧
    (ids.count a = 1 → b ∈ ids →
      validate_with_rules ids [⟨cid, a, "excludes", some b, none⟩] =
        [{ vtype := "mutual_exclusion",
           message := s!"El recurso {a} excluye el recurso {b}",
           resource_id := a, related_resource_id := some b }]) ∧
    (b ∉ ids →
      validate_with_rules ids [⟨cid, a, "excludes", some b, none⟩] = []) := by
  have hb' : (b != 0) = true := by simpa using hb
  refine ⟨?_, ?_, ?_, ?_⟩
  · intro hcount hnotmem
    rw [validate_with_rules_single]
    have hrv : ruleViolations ids a ⟨cid, a, "requires", some b, none⟩ =
        [{ vtype := "missing_requirement",
           message := s!"El recurso {a} requiere el recurso {b}",
           resource_id := a, related_resource_id := some b }] := by
      simp [ruleViolations, hb', hnotmem]
    rw [hrv]
    exact flatMap_ite_count_one a _ ids hcount
  · intro hmem
    rw [validate_with_rules_single]
    have hrv : ruleViolations ids a ⟨cid, a, "requires", some b, none⟩ = [] := by
      simp [ruleViolations, hb', hmem]
    rw [hrv]
    rw [List.flatMap_eq_nil_iff]
    intro x _
    split <;> rfl
  · intro hcount hmem
    rw [validate_with_rules_single]
    have hrv : ruleViolations ids a ⟨cid, a, "excludes", some b, none⟩ =
        [{ vtype := "mutual_exclusion",
           message := s!"El recurso {a} excluye el recurso {b}",
           resource_id := a, related_resource_id := some b }] := by
      simp [ruleViolations, hb', hmem]
    rw [hrv]
    exact flatMap_ite_count_one a _ ids hcount
  · intro hnotmem
    rw [validate_with_rules_single]
    have hrv : ruleViolations ids a ⟨cid, a, "excludes", some b, none⟩ = [] := by
      simp [ruleViolations, hb', hnotmem]
    rw [hrv]
    rw [List.flatMap_eq_nil_iff]
    intro x _
    split <;> rfl

/-- Witness for `c5_requires_excludes`: `requires(1→2)` with candidate set
`{1}` yields exactly the one `missing_requirement` violation. -/
theorem c5_requires_excludes_witness :
    validate_with_rules [1] [⟨100, 1, "requires", some 2, none⟩] =
      [{ vtype := "missing_requirement",
         message := "El recurso 1 requiere el recurso 2",
         resource_id := 1, related_resource_id := some 2 }] :=
  (c5_requires_excludes [1] 1 2 100 (by decide)).1 (by decide) (by decide)

/-! ### C6 — multi-resource aggregation -/

/-- Closed form for the aggregation loop of
`check_multiple_resources_conflict`. -/
theorem multiFold (ledger : List AllocRow) (now : Int) (s e : Int)
    (excl : Option Int) :
    ∀ (rids : List Int) (acc1 : List Int) (acc2 : List ConflictItem),
      rids.foldl (multiStep ledger now s e excl) (acc1, acc2) =
        (acc1 ++ rids.filter
            (fun rid => (check_resource_conflict ledger now rid s e excl).1),
          acc2 ++ rids.flatMap
            (fun rid =>
              if (check_resource_conflict ledger now rid s e excl).1 then
                (check_resource_conflict ledger now rid s e excl).2
              else [])) := by
  intro rids
  induction rids with
  | nil =>
    intro acc1 acc2
    simp
  | cons x t ih =>
    intro acc1 acc2
    have hstep : multiStep ledger now s e excl (acc1, acc2) x =
        if (check_resource_conflict ledger now x s e excl).1 then
          (acc1 ++ [x], acc2 ++ (check_resource_conflict ledger now x s e excl).2)
        else (acc1, acc2) := by
      simp [multiStep]
    rw [List.foldl_cons, hstep]
    by_cases hx : (check_resource_conflict ledger now x s e excl).1 = true
    · rw [if_pos hx, ih]
      simp [List.filter_cons, hx, List.append_assoc]
    · have hx' : (check_resource_conflict ledger now x s e excl).1 = false :=
        by simpa using hx
      rw [if_neg (by simp [hx']), ih]
      simp [List.filter_cons, hx']

/-- C6: `check_multiple_resources_conflict` evaluates every resource of the
list — the aggregate is a function of the per-resource check over the whole
list, never a short-circuited prefix: `has_conflict` holds iff some listed
resource conflicts, `conflicting_resources` is exactly the sublist of
conflicting ids, `conflicts` is the concatenation of every conflicting
resource's details, `total_resources_checked` is the full list length and
`conflicting_count` counts the conflicting ids. -/
theorem c6_multi_resource_aggregation (ledger : List AllocRow) (now : Int)
    (rids : List Int) (s e : Int) (excl : Option Int) :
    ((check_multiple_resources_conflict ledger now rids s e excl).has_conflict
        = true ↔
      ∃ rid ∈ rids, (check_resource_conflict ledger now rid s e excl).1
        = true) ∧
    (check_multiple_resources_conflict ledger now rids s e
        excl).conflicting_resources =
      rids.filter
        (fun rid => (check_resource_conflict ledger now rid s e excl).1) ∧
    (check_multiple_resources_conflict ledger now rids s e excl).conflicts =
      rids.flatMap (fun rid =>
        if (check_resource_conflict ledger now rid s e excl).1 then
          (check_resource_conflict ledger now rid s e excl).2
        else []) ∧
    (check_multiple_resources_conflict ledger now rids s e
        excl).total_resources_checked = rids.length ∧
    (check_multiple_resources_conflict ledger now rids s e
        excl).conflicting_count =
      (rids.filter
        (fun rid => (check_resource_conflict ledger now rid s e excl).1)).length
      := by
  simp only [check_multiple_resources_conflict,
    multiFold ledger now s e excl rids [] [], List.nil_append]
  refine ⟨?_, trivial, trivial, trivial, trivial⟩
  cases hfl : rids.filter
      (fun rid => (check_resource_conflict ledger now rid s e excl).1) with
  | nil =>
    constructor
    · intro h
      simp at h
    · rintro ⟨rid, hmem, hp⟩
      exact absurd hp (by simpa using List.filter_eq_nil_iff.mp hfl rid hmem)
  | cons y ys =>
    constructor
    · intro _
      have hy : y ∈ rids.filter
          (fun rid => (check_resource_conflict ledger now rid s e excl).1) := by
        rw [hfl]
        exact List.mem_cons_self y ys
      rcases List.mem_filter.mp hy with ⟨hmem, hp⟩
      exact ⟨y, hmem, hp⟩
    · intro _
      rfl

/-! ### C7 — slot search -/

/-- A successful hour sweep returns the first accepted hour of its range. -/
theorem hourSweep_some (p : Nat → Bool) :
    ∀ (n start h : Nat), hourSweep p start n = some h →
      start ≤ h ∧ h < start + n ∧ p h = true ∧
        ∀ h', start ≤ h' → h' < h → p h' = false := by
  intro n
  induction n with
  | zero =>
    intro start h hsw
    cases hsw
  | succ m ih =>
    intro start h hsw
    simp only [hourSweep] at hsw
    by_cases hp : p start = true
    · rw [if_pos hp] at hsw
      injection hsw with heq
      subst heq
      exact ⟨Nat.le_refl _, by omega, hp, fun h' h1 h2 => absurd h1 (by omega)⟩
    · rw [if_neg hp] at hsw
      obtain ⟨h1, h2, h3, h4⟩ := ih (start + 1) h hsw
      refine ⟨by omega, by omega, h3, ?_⟩
      intro h' hh1 hh2
      rcases Nat.eq_or_lt_of_le hh1 with heq | hlt
      · rw [← heq]
        exact Bool.not_eq_true _ ▸ Bool.of_not_eq_true hp
      · exact h4 h' (by omega) hh2

/-- The hour sweep fails exactly when every hour of its range is refused. -/
theorem hourSweep_none (p : Nat → Bool) :
    ∀ (n start : Nat), hourSweep p start n = none ↔
      ∀ h, start ≤ h → h < start + n → p h = false := by
  intro n
  induction n with
  | zero =>
    intro start
    constructor
    · intro _ h h1 h2
      omega
    · intro _
      rfl
  | succ m ih =>
    intro start
    simp only [hourSweep]
    by_cases hp : p start = true
    · rw [if_pos hp]
      constructor
      · intro hsw
        cases hsw
      · intro hall
        exact absurd (hall start (Nat.le_refl _) (by omega)) (by simp [hp])
    · rw [if_neg hp]
      rw [ih (start + 1)]
      have hps : p start = false := by simpa using hp
      constructor
      · intro hall h h1 h2
        rcases Nat.eq_or_lt_of_le h1 with heq | hlt
        · rw [← heq]
          exact hps
        · exact hall h (by omega) (by omega)
      · intro hall h h1 h2
        exact hall h (by omega) (by omega)

/-- A successful day sweep returns the first day offset whose hour sweep
succeeds. -/
theorem daySweep_some (q : Nat → Option Nat) :
    ∀ (n start d h : Nat), daySweep q start n = some (d, h) →
      start ≤ d ∧ d < start + n ∧ q d = some h ∧
        ∀ d', start ≤ d' → d' < d → q d' = none := by
  intro n
  induction n with
  | zero =>
    intro start d h hsw
    cases hsw
  | succ m ih =>
    intro start d h hsw
    simp only [daySweep] at hsw
    cases hq : q start with
    | some h0 =>
      rw [hq] at hsw
      injection hsw with heq
      injection heq with heqd heqh
      subst heqd
      subst heqh
      exact ⟨Nat.le_refl _, by omega, hq,
        fun d' h1 h2 => absurd h1 (by omega)⟩
    | none =>
      rw [hq] at hsw
      obtain ⟨h1, h2, h3, h4⟩ := ih (start + 1) d h hsw
      refine ⟨by omega, by omega, h3, ?_⟩
      intro d' hd1 hd2
      rcases Nat.eq_or_lt_of_le hd1 with heq | hlt
      · rw [← heq]
        exact hq
      · exact h4 d' (by omega) hd2

/-- The day sweep fails exactly when every day offset of its range fails. -/
theorem daySweep_none (q : Nat → Option Nat) :
    ∀ (n start : Nat), daySweep q start n = none ↔
      ∀ d, start ≤ d → d < start + n → q d = none := by
  intro n
  induction n with
  | zero =>
    intro start
    constructor
    · intro _ d h1 h2
      omega
    · intro _
      rfl
  | succ m ih =>
    intro start
    simp only [daySweep]
    cases hq : q start with
    | some h0 =>
      constructor
      · intro hsw
        cases hsw
      · intro hall
        exact absurd (hall start (Nat.le_refl _) (by omega)) (by simp [hq])
    | none =>
      rw [ih (start + 1)]
      constructor
      · intro hall d h1 h2
        rcases Nat.eq_or_lt_of_le h1 with heq | hlt
        · rw [← heq]
          exact hq
        · exact hall d (by omega) (by omega)
      · intro hall d h1 h2
        exact hall d (by omega) (by omega)

/-- C7: `find_available_time_slot` (i) returns the desired window at once
when it is conflict-free; (ii) any swept slot it returns is a conflict-free
candidate of the requested duration at a day offset below `maxDaysAhead`
and an hour in `[8,20)`, and is the lexicographically first such candidate
(day-major, hour-minor); (iii) whenever the desired window conflicts but
some candidate in range is free, a swept slot is returned; (iv) when the
desired window conflicts and every candidate in range conflicts, it
returns `available=false` carrying exactly `maxDaysAhead` as the number of
days checked. -/
theorem c7_slot_search (ledger : List AllocRow) (now : Int) (rids : List Int)
    (dS dE : Int) (durH maxD : Nat) (excl : Option Int) :
    (((check_multiple_resources_conflict ledger now rids dS dE
          excl).has_conflict = false) →
      find_available_time_slot ledger now rids dS dE durH maxD excl =
        .availableDesired dS dE "Horario deseado disponible") ∧
    (∀ cs ce r d h,
      find_available_time_slot ledger now rids dS dE durH maxD excl =
          .availableSlot cs ce r d h →
        (check_multiple_resources_conflict ledger now rids dS dE
            excl).has_conflict = true ∧
        d < maxD ∧ 8 ≤ h ∧ h < 20 ∧
        cs = candidateStart dS d h ∧ ce = cs + durH * 60 ∧
        slotFree ledger now rids dS durH excl d h = true ∧
        (∀ d' h', d' < maxD → 8 ≤ h' → h' < 20 →
          (d' < d ∨ (d' = d ∧ h' < h)) →
          slotFree ledger now rids dS durH excl d' h' = false)) ∧
    (((check_multiple_resources_conflict ledger now rids dS dE
          excl).has_conflict = true) →
      (∃ d h, d < maxD ∧ 8 ≤ h ∧ h < 20 ∧
          slotFree ledger now rids dS durH excl d h = true) →
      ∃ cs ce r d h,
        find_available_time_slot ledger now rids dS dE durH maxD excl =
          .availableSlot cs ce r d h) ∧
    (((check_multiple_resources_conflict ledger now rids dS dE
          excl).has_conflict = true) →
      (∀ d h, d < maxD → 8 ≤ h → h < 20 →
          slotFree ledger now rids dS durH excl d h = false) →
      find_available_time_slot ledger now rids dS dE durH maxD excl =
        .unavailable
          (s!"No hay disponibilidad en los proximos {maxD} dias") maxD) := by
  refine ⟨?_, ?_, ?_, ?_⟩
  · intro hfree
    simp only [find_available_time_slot, hfree, Bool.not_false, if_true]
  · intro cs ce r d h heq
    by_cases hdes : (check_multiple_resources_conflict ledger now rids dS dE
        excl).has_conflict = true
    · refine ⟨hdes, ?_⟩
      simp only [find_available_time_slot, hdes, Bool.not_true,
        Bool.false_eq_true, if_false] at heq
      cases hds : daySweep
          (fun d => hourSweep
            (slotFree ledger now rids dS durH excl d) 8 12) 0 maxD with
      | none =>
        rw [hds] at heq
        cases heq
      | some dh =>
        obtain ⟨d0, h0⟩ := dh
        rw [hds] at heq
        injection heq with heq1 heq2 heq3 heq4 heq5
        subst heq4
        subst heq5
        obtain ⟨_, hdlt, hq, hdfirst⟩ :=
          daySweep_some _ maxD 0 d0 h0 hds
        obtain ⟨hh1, hh2, hfree, hhfirst⟩ := hourSweep_some _ 12 8 h0 hq
        refine ⟨by omega, hh1, by omega, heq1.symm, ?_, hfree, ?_⟩
        · rw [← heq2, heq1]
        · intro d' h' hd' hh1' hh2' hlex
          rcases hlex with hdlt' | ⟨hdeq, hhlt⟩
          · have hq' : hourSweep
                (slotFree ledger now rids dS durH excl d') 8 12 = none :=
              hdfirst d' (Nat.zero_le _) hdlt'
            exact (hourSweep_none _ 12 8).mp hq' h' hh1' (by omega)
          · subst hdeq
            exact hhfirst h' hh1' hhlt
    · have hf : (check_multiple_resources_conflict ledger now rids dS dE
          excl).has_conflict = false := by simpa using hdes
      simp only [find_available_time_slot, hf, Bool.not_false, if_true] at heq
      cases heq
  · intro hdes hex
    simp only [find_available_time_slot, hdes, Bool.not_true,
      Bool.false_eq_true, if_false]
    cases hds : daySweep
        (fun d => hourSweep
          (slotFree ledger now rids dS durH excl d) 8 12) 0 maxD with
    | some dh =>
      obtain ⟨d0, h0⟩ := dh
      exact ⟨_, _, _, d0, h0, rfl⟩
    | none =>
      exfalso
      obtain ⟨d, h, hd, hh1, hh2, hfree⟩ := hex
      have hq : hourSweep
          (slotFree ledger now rids dS durH excl d) 8 12 = none :=
        (daySweep_none _ maxD 0).mp hds d (Nat.zero_le _) (by omega)
      have := (hourSweep_none _ 12 8).mp hq h hh1 (by omega)
      rw [this] at hfree
      cases hfree
  · intro hdes hall
    simp only [find_available_time_slot, hdes, Bool.not_true,
      Bool.false_eq_true, if_false]
    have hds : daySweep
        (fun d => hourSweep
          (slotFree ledger now rids dS durH excl d) 8 12) 0 maxD = none := by
      rw [daySweep_none]
      intro d hd1 hd2
      rw [hourSweep_none]
      intro h hh1 hh2
      exact hall d h (by omega) hh1 (by omega)
    rw [hds]

/-- Witness for `c7_slot_search`: with an empty ledger the desired window is
returned immediately. -/
theorem c7_slot_search_witness :
    find_available_time_slot [] 0 [1] 480 540 1 30 none =
      SlotResult.availableDesired 480 540 "Horario deseado disponible" :=
  (c7_slot_search [] 0 [1] 480 540 1 30 none).1 (by decide)

/-! ### C4 — batch validation in `create_event` -/

/-- The window scan records only conflict checks, never a rules check. -/
theorem scanWindows_trace_conflict (ledger : List AllocRow) (now : Int)
    (rids : List Int) :
    ∀ (dates : List (Int × Int)) (k : Nat),
      (scanWindows ledger now rids dates k).2.count
        ValidationCall.rulesCall = 0 := by
  intro dates
  induction dates with
  | nil =>
    intro k
    rfl
  | cons w rest ih =>
    intro k
    obtain ⟨s, e⟩ := w
    simp only [scanWindows]
    by_cases hw : (check_multiple_resources_conflict ledger now rids s e
        none).has_conflict = true
    · rw [if_pos hw]
      simp [List.count_cons]
    · rw [if_neg hw]
      simp [List.count_cons, ih (k + 1)]

/-- When no window conflicts, the scan checks every window in order and
reports nothing. -/
theorem scanWindows_none (ledger : List AllocRow) (now : Int)
    (rids : List Int) :
    ∀ (dates : List (Int × Int)) (k : Nat),
      (∀ w ∈ dates, (check_multiple_resources_conflict ledger now rids w.1 w.2
          none).has_conflict = false) →
      scanWindows ledger now rids dates k =
        (none, (List.range' k dates.length).map ValidationCall.conflictCall)
      := by
  intro dates
  induction dates with
  | nil =>
    intro k _
    rfl
  | cons w rest ih =>
    intro k hall
    obtain ⟨s, e⟩ := w
    have hw : (check_multiple_resources_conflict ledger now rids s e
        none).has_conflict = false := hall (s, e) (List.mem_cons_self _ _)
    simp only [scanWindows]
    rw [if_neg (by simp [hw])]
    rw [ih (k + 1) (fun w hw' => hall w (List.mem_cons_of_mem _ hw'))]
    simp [List.range']

/-- The scan aborts at the first conflicting window, reporting its 0-based
index plus one and having checked exactly the windows up to it. -/
theorem scanWindows_first (ledger : List AllocRow) (now : Int)
    (rids : List Int) :
    ∀ (dates : List (Int × Int)) (k i : Nat) (hi : i < dates.length),
      (∀ j (hj : j < dates.length), j < i →
        (check_multiple_resources_conflict ledger now rids
          (dates.get ⟨j, hj⟩).1 (dates.get ⟨j, hj⟩).2
          none).has_conflict = false) →
      (check_multiple_resources_conflict ledger now rids
        (dates.get ⟨i, hi⟩).1 (dates.get ⟨i, hi⟩).2
        none).has_conflict = true →
      scanWindows ledger now rids dates k =
        (some (k + i + 1,
          (check_multiple_resources_conflict ledger now rids
            (dates.get ⟨i, hi⟩).1 (dates.get ⟨i, hi⟩).2 none).conflicts),
         (List.range' k (i + 1)).map ValidationCall.conflictCall) := by
  intro dates
  induction dates with
  | nil =>
    intro k i hi
    exact absurd hi (by simp)
  | cons w rest ih =>
    intro k i hi hbefore hconf
    obtain ⟨s, e⟩ := w
    cases i with
    | zero =>
      have hw : (check_multiple_resources_conflict ledger now rids s e
          none).has_conflict = true := by
        simpa using hconf
      simp only [scanWindows]
      rw [if_pos hw]
      simp [List.range']
    | succ i' =>
      have hw : (check_multiple_resources_conflict ledger now rids s e
          none).has_conflict = false := by
        have := hbefore 0 (by simp) (Nat.succ_pos i')
        simpa using this
      have hi' : i' < rest.length := by
        simpa [Nat.succ_lt_succ_iff] using hi
      have hbefore' : ∀ j (hj : j < rest.length), j < i' →
          (check_multiple_resources_conflict ledger now rids
            (rest.get ⟨j, hj⟩).1 (rest.get ⟨j, hj⟩).2
            none).has_conflict = false := by
        intro j hj hlt
        have := hbefore (j + 1) (by simpa [Nat.succ_lt_succ_iff] using hj)
          (by omega)
        simpa using this
      have hconf' : (check_multiple_resources_conflict ledger now rids
          (rest.get ⟨i', hi'⟩).1 (rest.get ⟨i', hi'⟩).2
          none).has_conflict = true := by
        simpa using hconf
      simp only [scanWindows]
      rw [if_neg (by simp [hw])]
      rw [ih (k + 1) i' hi' hbefore' hconf']
      have harith : k + 1 + i' + 1 = k + (i' + 1) + 1 := by omega
      rw [harith]
      simp [List.range']

/-- C4 (amended): for a nonempty candidate resource list, `create_event`
runs the business-rule check exactly once and before any conflict check;
any rule violation aborts the batch with no conflict check performed;
otherwise the windows are checked in list order and the first conflicting
window (0-based index `i`) aborts the batch reporting occurrence number
`i + 1` (the source prints 1-based numbers); if every window passes the
batch is accepted; and on any rejection zero events are created.  (With an
empty resource list the source skips validation entirely, running the rules
check zero times.) -/
theorem c4_batch_validation (ruleRows : List RuleRow) (ledger : List AllocRow)
    (now : Int) (rids : List Int) (dates : List (Int × Int))
    (hne : rids ≠ []) :
    ((create_event ruleRows ledger now rids dates).2.count
        ValidationCall.rulesCall = 1 ∧
      (create_event ruleRows ledger now rids dates).2.head? =
        some ValidationCall.rulesCall) ∧
    (validate_resources rids ruleRows ≠ [] →
      create_event ruleRows ledger now rids dates =
        (.rejectedRules (validate_resources rids ruleRows),
         [ValidationCall.rulesCall])) ∧
    (validate_resources rids ruleRows = [] →
      ∀ i (hi : i < dates.length),
        (∀ j (hj : j < dates.length), j < i →
          (check_multiple_resources_conflict ledger now rids
            (dates.get ⟨j, hj⟩).1 (dates.get ⟨j, hj⟩).2
            none).has_conflict = false) →
        (check_multiple_resources_conflict ledger now rids
          (dates.get ⟨i, hi⟩).1 (dates.get ⟨i, hi⟩).2
          none).has_conflict = true →
        (create_event ruleRows ledger now rids dates).1 =
          .rejectedConflict (i + 1)
            (check_multiple_resources_conflict ledger now rids
              (dates.get ⟨i, hi⟩).1 (dates.get ⟨i, hi⟩).2 none).conflicts) ∧
    (validate_resources rids ruleRows = [] →
      (∀ w ∈ dates, (check_multiple_resources_conflict ledger now rids w.1 w.2
          none).has_conflict = false) →
      (create_event ruleRows ledger now rids dates).1 =
        .accepted (buildEvents rids dates)) ∧
    (∀ res tr, create_event ruleRows ledger now rids dates = (res, tr) →
      (¬ ∃ evs, res = .accepted evs) → createdEvents res = []) := by
  have hie : rids.isEmpty = false := by
    simpa [List.isEmpty_iff] using hne
  refine ⟨?_, ?_, ?_, ?_, ?_⟩
  · have key : ∃ tr', (create_event ruleRows ledger now rids dates).2 =
        ValidationCall.rulesCall :: tr' ∧
          tr'.count ValidationCall.rulesCall = 0 := by
      simp only [create_event, hie, Bool.false_eq_true, if_false]
      by_cases hv : (validate_resources rids ruleRows).isEmpty = true
      · rw [if_neg (by simp [hv])]
        rcases hsw : scanWindows ledger now rids dates 0 with ⟨o, tr⟩
        have htr : tr.count ValidationCall.rulesCall = 0 := by
          have h0 := scanWindows_trace_conflict ledger now rids dates 0
          rw [hsw] at h0
          exact h0
        cases o with
        | none => exact ⟨tr, rfl, htr⟩
        | some p =>
          obtain ⟨n, cs⟩ := p
          exact ⟨tr, rfl, htr⟩
      · rw [if_pos (by simp [Bool.not_eq_true] at hv ⊢; exact hv)]
        exact ⟨[], rfl, rfl⟩
    obtain ⟨tr', htr1, htr2⟩ := key
    rw [htr1]
    constructor
    · simp [List.count_cons, htr2]
    · rfl
  · intro hv
    have hve : (validate_resources rids ruleRows).isEmpty = false := by
      simpa [List.isEmpty_iff] using hv
    simp only [create_event, hie, Bool.false_eq_true, if_false]
    rw [if_pos (by simp [hve])]
  · intro hv i hi hbefore hconf
    simp only [create_event, hie, Bool.false_eq_true, if_false]
    rw [if_neg (by simp [hv])]
    rw [scanWindows_first ledger now rids dates 0 i hi hbefore hconf]
    simp
  · intro hv hall
    simp only [create_event, hie, Bool.false_eq_true, if_false]
    rw [if_neg (by simp [hv])]
    rw [scanWindows_none ledger now rids dates 0 hall]
  · intro res tr heq hnacc
    cases res with
    | rejectedRules v => rfl
    | rejectedConflict n cs => rfl
    | accepted evs => exact absurd ⟨evs, rfl⟩ hnacc

/-- C4 (counterexample): with windows `[w1 ok, w2 conflict, w3 ok]` the
source rejects at the second window but reports occurrence number 2, not
the 0-based index 1 the claim states; and with an empty resource list the
rules check runs zero times, not exactly once. -/
theorem c4_one_based_counterexample :
    (create_event []
        [{ resource_id := 1, event_id := 9, title := "B", start_time := 2000,
           end_time := 2060, status := "scheduled", quantity_used := 1 }]
        0 [1] [(1000, 1060), (2000, 2060), (3000, 3060)]).1 =
      BatchResult.rejectedConflict 2
        [ConflictItem.detail 9 "B" 2000 2060 1 "overlap"] ∧
    (2 : Nat) ≠ 1 ∧
    (create_event [] [] 0 [] [(0, 60)]).2.count ValidationCall.rulesCall
      = 0 := by
  decide

/-- Witness for `c4_batch_validation`: a conflict-free batch is accepted. -/
theorem c4_batch_validation_witness :
    (create_event [] [] 0 [1] [(0, 60)]).1 =
      BatchResult.accepted (buildEvents [1] [(0, 60)]) :=
  ((c4_batch_validation [] [] 0 [1] [(0, 60)]
      (by decide)).2.2.2.1) (by decide) (by decide)
